import Mathlib

/-!
Shallow embedding of the text transcoding and locale routines of
`dlls/ntdll/locale.c` (the ntdll locale engine of this repository),
together with theorems settling the frozen claims about this code.

Conventions of the embedding:
* Byte strings (`char *` plus a length) are `List Nat`; each read of a
  `char` as `unsigned char` is rendered `b % 256`.
* UTF-16 strings (`WCHAR *` plus a length in code units) are `List Nat`;
  each read of a `WCHAR` is rendered `c % 0x10000`.
* `DWORD` and `int` arithmetic that stays inside the machine range in all
  reachable states is rendered on `Nat` (or `Int` for the searches)
  directly.
* NTSTATUS codes are `Nat` constants carrying the `ntstatus.h` values.
* Lookup tables handed in by the caller (`CPTABLEINFO` members, the
  normalization table) are total functions `Nat → Nat`; reads mask to the
  element width at the use site, mirroring the C element types.
* Output buffers are materialized as the list of written units, and the
  running pointers of the C loops become the explicit loop state
  (remaining capacity, remaining input); a loop model returns the final
  state so that consumed and unconsumed input are visible.
-/

/-! ## NTSTATUS values (from ntstatus.h) -/

def STATUS_SUCCESS : Nat := 0
def STATUS_SOME_NOT_MAPPED : Nat := 0x00000107
def STATUS_UNSUCCESSFUL : Nat := 0xC0000001
def STATUS_INVALID_PARAMETER : Nat := 0xC000000D
def STATUS_BUFFER_TOO_SMALL : Nat := 0xC0000023
def STATUS_OBJECT_NAME_NOT_FOUND : Nat := 0xC0000034
def STATUS_INVALID_PARAMETER_1 : Nat := 0xC00000EF
def STATUS_NO_UNICODE_TRANSLATION : Nat := 0xC0000717
def STATUS_INVALID_IDN_NORMALIZATION : Nat := 0xC0150011

/-! ## UTF-8 decoding helper

`decode_utf8_char` is declared in `locale_private.h`, which is not part of
the sources; only its callers in `locale.c` are.  It is therefore
modelled from the spec. -/

/-- Modelled from the spec: number of continuation bytes expected after a
first byte `≥ 0x80`, per the continuation-byte state machine of the
UTF-8 codec (`utf8_length` table of `decode_utf8_char`, missing from the
sources).  Lead bytes `0x80..0xc1` and `0xf5..0xff` start no valid
sequence and expect none. -/
def utf8_length (ch : Nat) : Nat :=
  if ch < 0xc2 then 0
  else if ch ≤ 0xdf then 1
  else if ch ≤ 0xef then 2
  else if ch ≤ 0xf4 then 3
  else 0

/-- Modelled from the spec: payload mask applied to the first byte of a
sequence of `len` continuation bytes (`utf8_mask` of `decode_utf8_char`). -/
def utf8_mask : Nat → Nat
  | 0 => 0x7f
  | 1 => 0x1f
  | 2 => 0x0f
  | _ => 0x07

/-- Modelled from the spec: last step of the continuation-byte machine.
Takes the accumulated value, the next input byte and the count of
continuation bytes consumed so far; returns the decoded code point (or
`0xffffffff` for an invalid sequence) and the updated count. -/
def utf8_tail1 (res c consumed : Nat) : Nat × Nat :=
  let c := c % 256 ^^^ 0x80
  if 0x40 ≤ c then (0xffffffff, consumed)
  else
    let res := (res <<< 6) ||| c
    if res < 0x80 then (0xffffffff, consumed + 1)
    else (res, consumed + 1)

/-- Modelled from the spec: second-to-last step of the continuation-byte
machine, rejecting over-range values (`≥ 0x110000` after the final six
bits), overlong encodings and surrogate-range code points. -/
def utf8_tail2 (res c next consumed : Nat) : Nat × Nat :=
  let c := c % 256 ^^^ 0x80
  if 0x40 ≤ c then (0xffffffff, consumed)
  else
    let res := (res <<< 6) ||| c
    if 0x110000 >>> 6 ≤ res then (0xffffffff, consumed)
    else if res < 0x20 then (0xffffffff, consumed + 1)
    else if 0xd800 >>> 6 ≤ res ∧ res ≤ 0xdfff >>> 6 then (0xffffffff, consumed + 1)
    else utf8_tail1 res next (consumed + 1)

/-- Modelled from the spec: third-to-last step of the continuation-byte
machine (only reached for four-byte sequences), rejecting overlong
four-byte encodings. -/
def utf8_tail3 (res c next1 next2 : Nat) : Nat × Nat :=
  let c := c % 256 ^^^ 0x80
  if 0x40 ≤ c then (0xffffffff, 0)
  else
    let res := (res <<< 6) ||| c
    if res < 0x10 then (0xffffffff, 1)
    else utf8_tail2 res next1 next2 1

/-- Modelled from the spec: `decode_utf8_char` of `locale_private.h`
(missing from the sources) — the shared continuation-byte state machine
of the UTF-8 codec.  `ch` is the first byte (already consumed, `≥ 0x80`
at every call site), `rest` the remaining input.  Returns the decoded
code point — `0xffffffff`, greater than `0x10ffff`, for an invalid or
truncated sequence — and the number of bytes consumed from `rest` (the
advance of the `src` pointer; for a truncated sequence the pointer is
placed past the end, i.e. the count is the full expected length). -/
def decode_utf8_char (ch : Nat) (rest : List Nat) : Nat × Nat :=
  let len := utf8_length ch
  let res := ch &&& utf8_mask len
  if rest.length < len then (0xffffffff, len)
  else
    match len with
    | 0 => (0xffffffff, 0)
    | 1 => utf8_tail1 res (rest.getD 0 0) 0
    | 2 => utf8_tail2 res (rest.getD 0 0) (rest.getD 1 0) 0
    | _ => utf8_tail3 res (rest.getD 0 0) (rest.getD 1 0) (rest.getD 2 0)

/-- Modelled from the spec: `get_utf16` of `locale_private.h` (missing
from the sources) — assembles a full code point from a possible surrogate
pair.  Returns the number of code units consumed (`0` for a lone or
malformed surrogate, the error case) and the code point. -/
def get_utf16 : List Nat → Nat × Nat
  | [] => (0, 0)
  | c :: rest =>
    let c := c % 0x10000
    if 0xd800 ≤ c ∧ c ≤ 0xdbff then
      match rest with
      | [] => (0, 0)
      | c2 :: _ =>
        let c2 := c2 % 0x10000
        if 0xdc00 ≤ c2 ∧ c2 ≤ 0xdfff then
          (2, 0x10000 + ((c &&& 0x3ff) <<< 10) + (c2 &&& 0x3ff))
        else (0, 0)
    else if 0xdc00 ≤ c ∧ c ≤ 0xdfff then (0, 0)
    else (1, c)

/-! ## RtlUTF8ToUnicodeN (locale.c lines 957-1012) -/

/-- Result of a conversion call: the units written to `dst`, the value
stored in `*reslen` (in bytes), and the returned NTSTATUS. -/
structure ConvResult where
  out : List Nat
  reslen : Nat
  status : Nat
  deriving Repr, DecidableEq

/-- Size-only pass of `RtlUTF8ToUnicodeN` (the `!dst` branch): counts
output code units without writing.  Returns the count and the status. -/
def utf8_to_utf16_size : List Nat → Nat → Nat × Nat
  | [], st => (0, st)
  | b :: rest, st =>
    let ch := b % 256
    if ch < 0x80 then
      let r := utf8_to_utf16_size rest st
      (r.1 + 1, r.2)
    else
      let d := decode_utf8_char ch rest
      let rest2 := rest.drop d.2
      if 0x10ffff < d.1 then
        let r := utf8_to_utf16_size rest2 STATUS_SOME_NOT_MAPPED
        (r.1 + 1, r.2)
      else if 0xffff < d.1 then
        let r := utf8_to_utf16_size rest2 st
        (r.1 + 2, r.2)
      else
        let r := utf8_to_utf16_size rest2 st
        (r.1 + 1, r.2)
  termination_by src _ => src.length
  decreasing_by
    all_goals simp_all [List.length_drop]
    all_goals omega

/-- Writing pass of `RtlUTF8ToUnicodeN`: `space` is the remaining
destination capacity in `WCHAR`s.  Returns the written units, the
unconsumed input and the status.  The lone-high-surrogate break
(`if (dst == dstend) break`) is the `space = 0` case after writing the
high surrogate of a supplementary code point. -/
def utf8_to_utf16_write : Nat → List Nat → Nat → List Nat × List Nat × Nat
  | 0, src, st => ([], src, st)
  | _ + 1, [], st => ([], [], st)
  | space + 1, b :: rest, st =>
    let ch := b % 256
    if ch < 0x80 then
      let r := utf8_to_utf16_write space rest st
      (ch :: r.1, r.2)
    else
      let d := decode_utf8_char ch rest
      let rest2 := rest.drop d.2
      if d.1 ≤ 0xffff then
        let r := utf8_to_utf16_write space rest2 st
        (d.1 :: r.1, r.2)
      else if d.1 ≤ 0x10ffff then
        let res := d.1 - 0x10000
        if space = 0 then
          ([0xd800 ||| (res >>> 10)], rest2, st)
        else
          let r := utf8_to_utf16_write (space - 1) rest2 st
          ((0xd800 ||| (res >>> 10)) :: (0xdc00 ||| (res &&& 0x3ff)) :: r.1, r.2)
      else
        let r := utf8_to_utf16_write space rest2 STATUS_SOME_NOT_MAPPED
        (0xfffd :: r.1, r.2)
  termination_by _ src _ => src.length
  decreasing_by
    all_goals simp_all [List.length_drop]
    all_goals omega

/-- `RtlUTF8ToUnicodeN` (locale.c lines 957-1012).  `dstNull` selects the
size-only pass (`dst == NULL`); `dstlen` is in bytes and is divided by
`sizeof(WCHAR)`.  The `!src` and `!reslen` parameter checks fall outside
the list model and are not rendered. -/
def RtlUTF8ToUnicodeN (dstNull : Bool) (dstlen : Nat) (src : List Nat) : ConvResult :=
  if dstNull then
    let r := utf8_to_utf16_size src STATUS_SUCCESS
    ⟨[], r.1 * 2, r.2⟩
  else
    let r := utf8_to_utf16_write (dstlen / 2) src STATUS_SUCCESS
    let st := if r.2.1 ≠ [] then STATUS_BUFFER_TOO_SMALL else r.2.2
    ⟨r.1, r.1.length * 2, st⟩

/-! ## RtlUnicodeToUTF8N (locale.c lines 1018-1108) -/

/-- Size-only pass of `RtlUnicodeToUTF8N` (the `!dst` branch): counts
output bytes without writing. -/
def utf16_to_utf8_size : List Nat → Nat → Nat × Nat
  | [], st => (0, st)
  | c :: rest, st =>
    let ch := c % 0x10000
    if ch < 0x80 then
      let r := utf16_to_utf8_size rest st
      (r.1 + 1, r.2)
    else if ch < 0x800 then
      let r := utf16_to_utf8_size rest st
      (r.1 + 2, r.2)
    else
      let g := get_utf16 (c :: rest)
      let vs : Nat × Nat := if g.1 = 0 then (0xfffd, STATUS_SOME_NOT_MAPPED) else (g.2, st)
      if vs.1 < 0x10000 then
        let r := utf16_to_utf8_size rest vs.2
        (r.1 + 3, r.2)
      else
        let r := utf16_to_utf8_size rest.tail vs.2
        (r.1 + 4, r.2)
  termination_by src _ => src.length
  decreasing_by
    all_goals simp_all
    all_goals omega

/-- Writing pass of `RtlUnicodeToUTF8N`: `space` is the remaining
destination capacity in bytes.  Returns the written bytes, the unconsumed
input and the status.  Each `if (dst > end - k) break` of the C loop is
the corresponding `space < k` case. -/
def utf16_to_utf8_write : Nat → List Nat → Nat → List Nat × List Nat × Nat
  | _, [], st => ([], [], st)
  | space, c :: rest, st =>
    let ch := c % 0x10000
    if ch < 0x80 then
      if space < 1 then ([], c :: rest, st)
      else
        let r := utf16_to_utf8_write (space - 1) rest st
        (ch :: r.1, r.2)
    else if ch < 0x800 then
      if space < 2 then ([], c :: rest, st)
      else
        let r := utf16_to_utf8_write (space - 2) rest st
        ((0xc0 ||| (ch >>> 6)) :: (0x80 ||| (ch &&& 0x3f)) :: r.1, r.2)
    else
      let g := get_utf16 (c :: rest)
      let vs : Nat × Nat := if g.1 = 0 then (0xfffd, STATUS_SOME_NOT_MAPPED) else (g.2, st)
      let val := vs.1
      if val < 0x10000 then
        if space < 3 then ([], c :: rest, vs.2)
        else
          let r := utf16_to_utf8_write (space - 3) rest vs.2
          ((0xe0 ||| (val >>> 12)) :: (0x80 ||| ((val >>> 6) &&& 0x3f)) ::
            (0x80 ||| (val &&& 0x3f)) :: r.1, r.2)
      else
        if space < 4 then ([], c :: rest, vs.2)
        else
          let r := utf16_to_utf8_write (space - 4) rest.tail vs.2
          ((0xf0 ||| (val >>> 18)) :: (0x80 ||| ((val >>> 12) &&& 0x3f)) ::
            (0x80 ||| ((val >>> 6) &&& 0x3f)) :: (0x80 ||| (val &&& 0x3f)) :: r.1, r.2)
  termination_by _ src _ => src.length
  decreasing_by
    all_goals simp_all
    all_goals omega

/-- `RtlUnicodeToUTF8N` (locale.c lines 1018-1108).  `src` is the list of
`WCHAR` code units (so the byte length `srclen` is even, satisfying the
`srclen & 1` check); `dstlen` is in bytes. -/
def RtlUnicodeToUTF8N (dstNull : Bool) (dstlen : Nat) (src : List Nat) : ConvResult :=
  if dstNull then
    let r := utf16_to_utf8_size src STATUS_SUCCESS
    ⟨[], r.1, r.2⟩
  else
    let r := utf16_to_utf8_write dstlen src STATUS_SUCCESS
    let st := if r.2.1 ≠ [] then STATUS_BUFFER_TOO_SMALL else r.2.2
    ⟨r.1, r.1.length, st⟩

/-- A UTF-16 code-unit sequence containing no lone or malformed
surrogates. -/
def valid_utf16 : List Nat → Bool
  | [] => true
  | c :: rest =>
    let ch := c % 0x10000
    if 0xd800 ≤ ch ∧ ch ≤ 0xdbff then
      match rest with
      | [] => false
      | c2 :: rest2 =>
        if 0xdc00 ≤ c2 % 0x10000 ∧ c2 % 0x10000 ≤ 0xdfff then valid_utf16 rest2
        else false
    else if 0xdc00 ≤ ch ∧ ch ≤ 0xdfff then false
    else valid_utf16 rest
/-! ## Code-page tables (CPTABLEINFO, locale.c lines 50-80 and 556-647) -/

/-- The members of `CPTABLEINFO` used by the conversion routines.
`RtlInitCodePageTable` (locale.c lines 362-397) sets `DBCSCodePage = 1`
exactly when it sets `DBCSOffsets` non-NULL, so the tests
`info->DBCSCodePage` and `info->DBCSOffsets` of the conversion routines
agree; both are rendered as the single flag `DBCS`.  `DBCSOffsets` is the
`USHORT` array indexed first by lead byte (row offset) and then by
`offset + trail byte`; `MultiByteTable` is the 256-entry byte → `WCHAR`
table; `WideCharTable` is the `WCHAR`-indexed reverse table (`USHORT`
entries for a DBCS page, byte entries for a single-byte page). -/
structure CPTableInfo where
  DBCS : Bool
  DBCSOffsets : Nat → Nat
  MultiByteTable : Nat → Nat
  WideCharTable : Nat → Nat

/-- Inner walk of `mbtowc_size` (locale.c lines 50-65) for a DBCS page:
each iteration consumes one byte and counts one `WCHAR`; a lead byte
with a nonzero row offset consumes the following byte as well — unless
it is the last available byte (`len > 1` fails). -/
def mbtowc_size_dbcs (offs : Nat → Nat) : List Nat → Nat
  | [] => 0
  | [_] => 1
  | b :: b2 :: rest =>
    if offs (b % 256) % 0x10000 ≠ 0 then mbtowc_size_dbcs offs rest + 1
    else mbtowc_size_dbcs offs (b2 :: rest) + 1

/-- `mbtowc_size` (locale.c lines 50-65): for a non-DBCS page the answer
is the byte count; otherwise the DBCS walk above. -/
def mbtowc_size (info : CPTableInfo) (src : List Nat) : Nat :=
  if !info.DBCS then src.length else mbtowc_size_dbcs info.DBCSOffsets src

/-- DBCS loop of `RtlCustomCPToUnicodeN` (locale.c lines 564-575).
First argument of the state is the remaining destination capacity `i`
(in `WCHAR`s); returns the written units, the final `i` and the
unconsumed input.  A lead byte with a nonzero row offset consumes the
trail byte when one is available (`srclen > 1`) and resolves the pair
through the row table; otherwise the byte goes through the single-byte
table. -/
def cp2uni_dbcs (offs mb : Nat → Nat) : Nat → List Nat → List Nat × Nat × List Nat
  | 0, src => ([], 0, src)
  | i + 1, [] => ([], i + 1, [])
  | i + 1, [b] =>
    let r := cp2uni_dbcs offs mb i []
    (mb (b % 256) % 0x10000 :: r.1, r.2)
  | i + 1, b :: b2 :: rest =>
    if offs (b % 256) % 0x10000 ≠ 0 then
      let r := cp2uni_dbcs offs mb i rest
      (offs ((offs (b % 256) % 0x10000) + b2 % 256) % 0x10000 :: r.1, r.2)
    else
      let r := cp2uni_dbcs offs mb i (b2 :: rest)
      (mb (b % 256) % 0x10000 :: r.1, r.2)

/-- `RtlCustomCPToUnicodeN` (locale.c lines 556-584).  `dstlen` is in
bytes and is divided by `sizeof(WCHAR)`; `*reslen` receives the written
`WCHAR` count times `sizeof(WCHAR)`; the status is always success. -/
def RtlCustomCPToUnicodeN (info : CPTableInfo) (dstlen : Nat) (src : List Nat) : ConvResult :=
  let dstlenW := dstlen / 2
  if info.DBCS then
    let r := cp2uni_dbcs info.DBCSOffsets info.MultiByteTable dstlenW src
    ⟨r.1, (dstlenW - r.2.1) * 2, STATUS_SUCCESS⟩
  else
    let ret := min src.length dstlenW
    ⟨(src.take ret).map (fun b => info.MultiByteTable (b % 256) % 0x10000),
      ret * 2, STATUS_SUCCESS⟩

/-- `RtlMultiByteToUnicodeSize` (locale.c lines 643-647): stores
`mbtowc_size(...) * sizeof(WCHAR)` and returns success.  The global
`nls_info.AnsiTableInfo` is a parameter of the model. -/
def RtlMultiByteToUnicodeSize (info : CPTableInfo) (src : List Nat) : Nat × Nat :=
  (mbtowc_size info src * 2, STATUS_SUCCESS)

/-- DBCS loop of `RtlUnicodeToCustomCPN` (locale.c lines 600-609).
State: remaining destination capacity `i` in bytes and remaining input;
returns the written bytes, the final `i` and the unconsumed input.  A
table entry with the high byte set (`uni2cp[*src] & 0xff00`) emits two
bytes, but when only one byte of space is left (`i == 1`) the loop stops
before consuming the code unit (`do not output a partial char`). -/
def uni2cp_dbcs (t : Nat → Nat) : Nat → List Nat → List Nat × Nat × List Nat
  | 0, src => ([], 0, src)
  | i + 1, [] => ([], i + 1, [])
  | i + 1, c :: rest =>
    let v := t (c % 0x10000) % 0x10000
    if v &&& 0xff00 ≠ 0 then
      if i = 0 then ([], 1, c :: rest)
      else
        let r := uni2cp_dbcs t (i - 1) rest
        ((v >>> 8) :: v % 256 :: r.1, r.2)
    else
      let r := uni2cp_dbcs t i rest
      (v % 256 :: r.1, r.2)

/-- `RtlUnicodeToCustomCPN` (locale.c lines 590-620).  `srclen` is the
length of the `WCHAR` list (the C byte count divided by
`sizeof(WCHAR)`); `*reslen` receives the written byte count; the status
is always success. -/
def RtlUnicodeToCustomCPN (info : CPTableInfo) (dstlen : Nat) (src : List Nat) : ConvResult :=
  if info.DBCS then
    let r := uni2cp_dbcs info.WideCharTable dstlen src
    ⟨r.1, dstlen - r.2.1, STATUS_SUCCESS⟩
  else
    let ret := min src.length dstlen
    ⟨(src.take ret).map (fun c => info.WideCharTable (c % 0x10000) % 256),
      ret, STATUS_SUCCESS⟩

/-- The byte sequence `RtlUnicodeToCustomCPN` emits for one fully
processed code unit of a DBCS page: high byte first when the table entry
has one, the low byte alone otherwise. -/
def wctomb_enc (t : Nat → Nat) (c : Nat) : List Nat :=
  let v := t (c % 0x10000) % 0x10000
  if v &&& 0xff00 ≠ 0 then [v >>> 8, v % 256] else [v % 256]

/-! ## Locale registry (locale.c lines 83-177 and 879-951) -/

/-- `casemap_ascii` (locale.c lines 89-93): ASCII-only upper-casing. -/
def casemap_ascii (ch : Nat) : Nat :=
  if 0x61 ≤ ch ∧ ch ≤ 0x7a then ch - 0x20 else ch

/-- The per-character folding `compare_locale_names` (locale.c lines
138-141) applies before comparing: `casemap_ascii`, then `_` mapped
to `-`. -/
def locale_name_fold (ch : Nat) : Nat :=
  let c := casemap_ascii ch
  if c = 0x5f then 0x2d else c

/-- `compare_locale_names` (locale.c lines 134-144).  The C strings are
null-terminated; the model reads the terminator once a list runs out
(`headD 0`), so a list plays the string up to its terminator. -/
def compare_locale_names : List Nat → List Nat → Int
  | [], n2 => 0 - (locale_name_fold (n2.headD 0 % 0x10000) : Int)
  | c1 :: r1, n2 =>
    let ch1 := locale_name_fold (c1 % 0x10000)
    let ch2 := locale_name_fold (n2.headD 0 % 0x10000)
    if ch1 = 0 ∨ ch1 ≠ ch2 then (ch1 : Int) - (ch2 : Int)
    else compare_locale_names r1 n2.tail

/-- One entry of the locale-name index (`NLS_LOCALE_LCNAME_INDEX`): the
stored name (the model carries the string `locale_strings + entry->name
+ 1` directly, the length prefix being the list length), the locale-data
index and the LCID. -/
structure LcnameEntry where
  name : List Nat
  idx : Nat
  id : Nat

/-- One entry of the LCID index (`NLS_LOCALE_LCID_INDEX`): the LCID, the
locale-data index and the stored name. -/
structure LcidEntry where
  id : Nat
  idx : Nat
  name : List Nat

/-- Binary-search loop of `find_lcname_entry` (locale.c lines 149-161).
`min`/`max` are the C `int` variables (`max` reaches `-1`, hence `Int`);
in every reachable state `min + max ≥ 0`, where the Lean `/` agrees with
the C division. -/
def find_lcname_rec (ent : Nat → LcnameEntry) (name : List Nat) (lo hi : Int) :
    Option LcnameEntry :=
  if h : lo ≤ hi then
    let pos := (lo + hi) / 2
    let res := compare_locale_names name (ent pos.toNat).name
    if res < 0 then find_lcname_rec ent name lo (pos - 1)
    else if 0 < res then find_lcname_rec ent name (pos + 1) hi
    else some (ent pos.toNat)
  else none
  termination_by (hi + 1 - lo).toNat
  decreasing_by all_goals omega

/-- `find_lcname_entry` (locale.c lines 147-162): binary search over the
`nb` entries of the name index.  The `!name` null check falls outside
the list model. -/
def find_lcname_entry (ent : Nat → LcnameEntry) (nb : Nat) (name : List Nat) :
    Option LcnameEntry :=
  find_lcname_rec ent name 0 ((nb : Int) - 1)

/-- Binary-search loop of `find_lcid_entry` (locale.c lines 167-176). -/
def find_lcid_rec (ent : Nat → LcidEntry) (lcid : Nat) (lo hi : Int) : Option LcidEntry :=
  if h : lo ≤ hi then
    let pos := (lo + hi) / 2
    if lcid < (ent pos.toNat).id then find_lcid_rec ent lcid lo (pos - 1)
    else if (ent pos.toNat).id < lcid then find_lcid_rec ent lcid (pos + 1) hi
    else some (ent pos.toNat)
  else none
  termination_by (hi + 1 - lo).toNat
  decreasing_by all_goals omega

/-- `find_lcid_entry` (locale.c lines 165-177). -/
def find_lcid_entry (ent : Nat → LcidEntry) (nb : Nat) (lcid : Nat) : Option LcidEntry :=
  find_lcid_rec ent lcid 0 ((nb : Int) - 1)

/-- The process-wide locale tables and default-locale providers the
registry functions consult: the two sorted indices, the per-index
`inotneutral` field of `get_locale_data` (locale.c lines 180-184), and
the `NtQueryDefaultLocale` values for the sentinel LCIDs. -/
structure LocaleRegistry where
  nb_lcnames : Nat
  lcnames : Nat → LcnameEntry
  nb_lcids : Nat
  lcids : Nat → LcidEntry
  inotneutral : Nat → Nat
  user_default : Nat
  system_default : Nat

def LOCALE_USER_DEFAULT : Nat := 0x400
def LOCALE_SYSTEM_DEFAULT : Nat := 0x800
def LOCALE_CUSTOM_DEFAULT : Nat := 0xc00
def LOCALE_CUSTOM_UNSPECIFIED : Nat := 0x1000
def LOCALE_CUSTOM_UI_DEFAULT : Nat := 0x1400

/-- `RtlIsValidLocaleName` (locale.c lines 879-887): reject a neutral
locale unless flag 2 is set. -/
def RtlIsValidLocaleName (reg : LocaleRegistry) (name : List Nat) (flags : Nat) : Bool :=
  match find_lcname_entry reg.lcnames reg.nb_lcnames name with
  | none => false
  | some e =>
    if flags &&& 2 = 0 ∧ reg.inotneutral e.idx = 0 then false
    else true

/-- `RtlLocaleNameToLcid` (locale.c lines 941-951): returns the status
and the LCID stored through `*lcid` (0 when nothing is stored). -/
def RtlLocaleNameToLcid (reg : LocaleRegistry) (name : List Nat) (flags : Nat) : Nat × Nat :=
  match find_lcname_entry reg.lcnames reg.nb_lcnames name with
  | none => (STATUS_INVALID_PARAMETER_1, 0)
  | some e =>
    if flags &&& 2 = 0 ∧ reg.inotneutral e.idx = 0 then (STATUS_INVALID_PARAMETER_1, 0)
    else (STATUS_SUCCESS, e.id)

/-- Result of `RtlLcidToLocaleName`: status, the string copied to the
caller's buffer, and the `Length` field in bytes. -/
structure NameResult where
  status : Nat
  buffer : List Nat
  length : Nat
  deriving Repr, DecidableEq

/-- `RtlLcidToLocaleName` (locale.c lines 893-935).  The `!str` check
falls outside the model; the `alloc` path assumes the heap allocation
(external allocator) succeeds. -/
def RtlLcidToLocaleName (reg : LocaleRegistry) (lcid flags : Nat) (maxlen : Nat)
    (alloc : Bool) : NameResult :=
  if lcid = LOCALE_CUSTOM_UI_DEFAULT then ⟨STATUS_UNSUCCESSFUL, [], 0⟩
  else if lcid = LOCALE_CUSTOM_UNSPECIFIED then ⟨STATUS_INVALID_PARAMETER_1, [], 0⟩
  else
    let lcid := if lcid = LOCALE_USER_DEFAULT then reg.user_default
      else if lcid = LOCALE_SYSTEM_DEFAULT ∨ lcid = LOCALE_CUSTOM_DEFAULT then
        reg.system_default
      else lcid
    match find_lcid_entry reg.lcids reg.nb_lcids lcid with
    | none => ⟨STATUS_INVALID_PARAMETER_1, [], 0⟩
    | some e =>
      if flags &&& 2 = 0 ∧ reg.inotneutral e.idx = 0 then ⟨STATUS_INVALID_PARAMETER_1, [], 0⟩
      else
        let len := e.name.length
        if alloc = false ∧ maxlen < (len + 1) * 2 then ⟨STATUS_BUFFER_TOO_SMALL, [], 0⟩
        else ⟨STATUS_SUCCESS, e.name, len * 2⟩

/-! ## Normalization-table loading (locale.c lines 96-131) -/

/-- A mapped normalization blob as returned by `NtGetNlsSectionPtr`: the
`USHORT` data array and the mapping's byte size. -/
structure NormBlob where
  data : List Nat
  size : Nat
  deriving Repr, DecidableEq

/-- The sanity checks `load_norm_table` runs on a freshly mapped blob
(locale.c lines 111-120): the size must exceed `0x44` bytes, the
`USHORT` at index `0x14` must equal the requested form, and the eight
sub-table offsets at `USHORT` indices `0x1a..0x21` must not exceed
`size / sizeof(USHORT)` and must be nondecreasing. -/
def valid_norm_blob (form : Nat) (data : List Nat) (size : Nat) : Prop :=
  0x44 < size ∧
  data.getD 0x14 0 % 0x10000 = form ∧
  ∀ i < 8, data.getD (0x1a + i) 0 % 0x10000 ≤ size / 2 ∧
    (i = 0 ∨ data.getD (0x1a + i - 1) 0 % 0x10000 ≤ data.getD (0x1a + i) 0 % 0x10000)

instance valid_norm_blob_decidable (form : Nat) (data : List Nat) (size : Nat) :
    Decidable (valid_norm_blob form data size) := by
  unfold valid_norm_blob
  infer_instance

/-- `load_norm_table` (locale.c lines 96-131).  `provider` models the
external collaborator `NtGetNlsSectionPtr` (a status or a mapped blob);
`cache` is the `norm_tables` array (16 slots).  Returns the status, the
`*info` result and the updated cache.  The single-threaded model stores
the winning blob directly (the interlocked publish of line 122); a
failing blob is rejected and never cached (the unmap of line 129 has no
observable state here). -/
def load_norm_table (provider : Nat → Except Nat NormBlob)
    (cache : Nat → Option NormBlob) (form : Nat) :
    Nat × Option NormBlob × (Nat → Option NormBlob) :=
  if form = 0 then (STATUS_INVALID_PARAMETER, none, cache)
  else if 16 ≤ form then (STATUS_OBJECT_NAME_NOT_FOUND, none, cache)
  else
    match cache form with
    | some t => (STATUS_SUCCESS, some t, cache)
    | none =>
      match provider form with
      | .error s => (s, none, cache)
      | .ok blob =>
        if valid_norm_blob form blob.data blob.size then
          (STATUS_SUCCESS, some blob, fun f => if f = form then some blob else cache f)
        else (STATUS_INVALID_PARAMETER, none, cache)

/-! ## RtlIdnToNameprepUnicode (locale.c lines 1385-1453) -/

def IDN_ALLOW_UNASSIGNED : Nat := 1
def IDN_USE_STD3_ASCII_RULES : Nat := 2

/-- Per-label validation loop of `RtlIdnToNameprepUnicode` (locale.c
lines 1417-1441).  `props` is `get_char_props` applied to the loaded
form-13 normalization table — the table walk lives in
`locale_private.h`, not in the sources, so the per-code-point property
byte is abstracted as a table parameter.  The loop walks `buf` (as
`rem`, the tail from position `i`), tracking the position `i` and the
label start `start`; it either fails fatally or returns the `(i, start)`
at which the loop exited. -/
def nameprep_label_loop (props : Nat → Nat) (flags : Nat) (buf : List Nat) :
    List Nat → Nat → Nat → Except Nat (Nat × Nat)
  | [], i, start => .ok (i, start)
  | c :: rem, i, start =>
    let g := get_utf16 (c :: rem)
    if _hg : g.1 = 0 then .ok (i, start)
    else if g.2 = 0 then .ok (i, start)
    else if g.2 = 0x2e then
      if start = i then .error STATUS_INVALID_IDN_NORMALIZATION
      else if 63 < i - start then .error STATUS_INVALID_IDN_NORMALIZATION
      else if flags &&& IDN_USE_STD3_ASCII_RULES ≠ 0 ∧
          (buf.getD start 0 % 0x10000 = 0x2d ∨ buf.getD (i - 1) 0 % 0x10000 = 0x2d) then
        .error STATUS_INVALID_IDN_NORMALIZATION
      else nameprep_label_loop props flags buf ((c :: rem).drop g.1) (i + g.1) (i + 1)
    else if flags &&& IDN_USE_STD3_ASCII_RULES ≠ 0 then
      if (0x61 ≤ g.2 ∧ g.2 ≤ 0x7a) ∨ (0x41 ≤ g.2 ∧ g.2 ≤ 0x5a) ∨
          (0x30 ≤ g.2 ∧ g.2 ≤ 0x39) ∨ g.2 = 0x2d then
        nameprep_label_loop props flags buf ((c :: rem).drop g.1) (i + g.1) start
      else .error STATUS_INVALID_IDN_NORMALIZATION
    else if flags &&& IDN_ALLOW_UNASSIGNED = 0 ∧ props g.2 = 0x7f then
      .error STATUS_INVALID_IDN_NORMALIZATION
    else nameprep_label_loop props flags buf ((c :: rem).drop g.1) (i + g.1) start
  termination_by rem _ _ => rem.length
  decreasing_by
    all_goals simp [List.length_drop]
    all_goals exact Nat.pos_of_ne_zero _hg

/-- The tail of `RtlIdnToNameprepUnicode` after `buf`/`buflen` are
settled (locale.c lines 1417-1452): run the label loop, apply the final
label checks (`!i || i - start > 63`, trailing STD3 hyphen rule), then
the two-phase `*dstlen` protocol.  Returns the status, the copied
string and the final `*dstlen`. -/
def nameprep_validate (props : Nat → Nat) (flags : Nat) (buf : List Nat) (dstlen : Nat) :
    Nat × List Nat × Nat :=
  match nameprep_label_loop props flags buf buf 0 0 with
  | .error s => (s, [], dstlen)
  | .ok (i, start) =>
    if i = 0 ∨ 63 < i - start then (STATUS_INVALID_IDN_NORMALIZATION, [], dstlen)
    else if flags &&& IDN_USE_STD3_ASCII_RULES ≠ 0 ∧
        (buf.getD start 0 % 0x10000 = 0x2d ∨ buf.getD (i - 1) 0 % 0x10000 = 0x2d) then
      (STATUS_INVALID_IDN_NORMALIZATION, [], dstlen)
    else if dstlen ≠ 0 then
      if buf.length ≤ dstlen then (STATUS_SUCCESS, buf, buf.length)
      else (STATUS_BUFFER_TOO_SMALL, [], buf.length)
    else (STATUS_SUCCESS, [], buf.length)

/-- `RtlIdnToNameprepUnicode` (locale.c lines 1385-1453).  `src` carries
its explicit length (the `srclen = -1` re-measuring and the `!src` check
fall outside the list model); the form-13 table load is abstracted to the
`props` parameter, and `norm` stands for the `RtlNormalizeString` call of
the non-ASCII branch (its decomposition core is not part of the
sources).  Result: status, copied string, final `*dstlen`. -/
def RtlIdnToNameprepUnicode (props : Nat → Nat) (norm : List Nat → Nat × List Nat)
    (flags : Nat) (src : List Nat) (dstlen : Nat) : Nat × List Nat × Nat :=
  if flags &&& (IDN_ALLOW_UNASSIGNED ||| IDN_USE_STD3_ASCII_RULES) ≠ flags then
    (STATUS_INVALID_PARAMETER, [], dstlen)
  else
    let srclen := src.length
    let i0 := src.findIdx (fun c => decide (c % 0x10000 < 0x20 ∨ 0x7f ≤ c % 0x10000))
    if i0 = srclen ∨ (i0 = srclen - 1 ∧ src.getD i0 0 % 0x10000 = 0) then
      if 256 < srclen then (STATUS_INVALID_IDN_NORMALIZATION, [], dstlen)
      else nameprep_validate props flags src dstlen
    else
      let r := norm src
      if r.1 ≠ STATUS_SUCCESS then
        (if r.1 = STATUS_NO_UNICODE_TRANSLATION then STATUS_INVALID_IDN_NORMALIZATION
         else r.1, [], dstlen)
      else nameprep_validate props flags r.2 dstlen

theorem utf8_write_of_size_le (src : List Nat) (cap st st2 : Nat)
    (h : (utf8_to_utf16_size src st2).1 ≤ cap) :
    (utf8_to_utf16_write cap src st).1.length = (utf8_to_utf16_size src st2).1 ∧
    (utf8_to_utf16_write cap src st).2.1 = [] := by
  match src, cap with
  | [], 0 =>
    simp [utf8_to_utf16_size, utf8_to_utf16_write]
  | [], c + 1 =>
    simp [utf8_to_utf16_size, utf8_to_utf16_write]
  | b :: rest, cap =>
    rw [utf8_to_utf16_size] at h ⊢
    by_cases hb : b % 256 < 0x80
    · simp only [if_pos hb] at h ⊢
      obtain ⟨c, rfl⟩ : ∃ c, cap = c + 1 := ⟨cap - 1, by omega⟩
      rw [utf8_to_utf16_write]
      simp only [if_pos hb]
      have ih := utf8_write_of_size_le rest c st st2 (by omega)
      simp [ih.1, ih.2]
    · simp only [if_neg hb] at h ⊢
      by_cases h1 : 0x10ffff < (decode_utf8_char (b % 256) rest).1
      · simp only [if_pos h1] at h ⊢
        obtain ⟨c, rfl⟩ : ∃ c, cap = c + 1 := ⟨cap - 1, by omega⟩
        rw [utf8_to_utf16_write]
        simp only [if_neg hb, if_neg (by omega : ¬ (decode_utf8_char (b % 256) rest).1 ≤ 0xffff),
          if_neg (by omega : ¬ (decode_utf8_char (b % 256) rest).1 ≤ 0x10ffff)]
        have ih := utf8_write_of_size_le (rest.drop (decode_utf8_char (b % 256) rest).2) c
          STATUS_SOME_NOT_MAPPED STATUS_SOME_NOT_MAPPED (by omega)
        simp [ih.1, ih.2]
      · simp only [if_neg h1] at h ⊢
        by_cases h2 : 0xffff < (decode_utf8_char (b % 256) rest).1
        · simp only [if_pos h2] at h ⊢
          obtain ⟨c, rfl⟩ : ∃ c, cap = c + 1 := ⟨cap - 1, by omega⟩
          rw [utf8_to_utf16_write]
          simp only [if_neg hb, if_neg (by omega : ¬ (decode_utf8_char (b % 256) rest).1 ≤ 0xffff),
            if_pos (by omega : (decode_utf8_char (b % 256) rest).1 ≤ 0x10ffff),
            if_neg (by omega : ¬ c = 0)]
          have ih := utf8_write_of_size_le (rest.drop (decode_utf8_char (b % 256) rest).2) (c - 1)
            st st2 (by omega)
          simp [ih.1, ih.2]
        · simp only [if_neg h2] at h ⊢
          obtain ⟨c, rfl⟩ : ∃ c, cap = c + 1 := ⟨cap - 1, by omega⟩
          rw [utf8_to_utf16_write]
          simp only [if_neg hb, if_pos (by omega : (decode_utf8_char (b % 256) rest).1 ≤ 0xffff)]
          have ih := utf8_write_of_size_le (rest.drop (decode_utf8_char (b % 256) rest).2) c
            st st2 (by omega)
          simp [ih.1, ih.2]
  termination_by src.length
  decreasing_by
    all_goals simp [List.length_drop]
    all_goals omega
theorem utf16_write_of_size_le (src : List Nat) (cap st st2 : Nat)
    (h : (utf16_to_utf8_size src st2).1 ≤ cap) :
    (utf16_to_utf8_write cap src st).1.length = (utf16_to_utf8_size src st2).1 ∧
    (utf16_to_utf8_write cap src st).2.1 = [] := by
  match src with
  | [] =>
    simp [utf16_to_utf8_size, utf16_to_utf8_write]
  | c :: rest =>
    rw [utf16_to_utf8_size] at h ⊢
    rw [utf16_to_utf8_write]
    by_cases hb : c % 0x10000 < 0x80
    · simp only [if_pos hb] at h ⊢
      have ih := utf16_write_of_size_le rest (cap - 1) st st2 (by omega)
      simp only [if_neg (by omega : ¬ cap < 1)]
      simp [ih.1, ih.2]
    · simp only [if_neg hb] at h ⊢
      by_cases hb2 : c % 0x10000 < 0x800
      · simp only [if_pos hb2] at h ⊢
        have ih := utf16_write_of_size_le rest (cap - 2) st st2 (by omega)
        simp only [if_neg (by omega : ¬ cap < 2)]
        simp [ih.1, ih.2]
      · simp only [if_neg hb2] at h ⊢
        by_cases hg : (get_utf16 (c :: rest)).1 = 0
        · simp only [if_pos hg, if_pos (by norm_num : (0xfffd : Nat) < 0x10000)] at h ⊢
          have ih := utf16_write_of_size_le rest (cap - 3) STATUS_SOME_NOT_MAPPED
            STATUS_SOME_NOT_MAPPED (by omega)
          simp only [if_neg (by omega : ¬ cap < 3)]
          simp [ih.1, ih.2]
        · simp only [if_neg hg] at h ⊢
          by_cases hv : (get_utf16 (c :: rest)).2 < 0x10000
          · simp only [if_pos hv] at h ⊢
            have ih := utf16_write_of_size_le rest (cap - 3) st st2 (by omega)
            simp only [if_neg (by omega : ¬ cap < 3)]
            simp [ih.1, ih.2]
          · simp only [if_neg hv] at h ⊢
            have ih := utf16_write_of_size_le rest.tail (cap - 4) st st2 (by omega)
            simp only [if_neg (by omega : ¬ cap < 4)]
            simp [ih.1, ih.2]
  termination_by src.length
  decreasing_by
    all_goals simp
    all_goals omega

/-- C1: for every UTF-16 input with no invalid (lone or malformed)
surrogates, and for every UTF-8 input, the size-only pass (`dst = NULL`)
of `RtlUTF8ToUnicodeN` and `RtlUnicodeToUTF8N` reports in `*reslen`
exactly the number of output units (in bytes) that the writing pass
produces when given a destination of sufficient capacity.  (For the
UTF-8 → UTF-16 direction this holds for arbitrary input; the destination
byte count is `2 * cap` to honour the `dstlen /= sizeof(WCHAR)`
division.) -/
theorem utf8_utf16_size_only_equals_writing_pass :
    (∀ (src : List Nat) (cap : Nat),
       (RtlUTF8ToUnicodeN true 0 src).reslen ≤ 2 * cap →
       (RtlUTF8ToUnicodeN false (2 * cap) src).reslen =
         (RtlUTF8ToUnicodeN true 0 src).reslen) ∧
    (∀ (src : List Nat) (cap : Nat), valid_utf16 src = true →
       (RtlUnicodeToUTF8N true 0 src).reslen ≤ cap →
       (RtlUnicodeToUTF8N false cap src).reslen =
         (RtlUnicodeToUTF8N true 0 src).reslen) := by
  constructor
  · intro src cap h
    simp only [RtlUTF8ToUnicodeN, if_true] at h ⊢
    have hcap : 2 * cap / 2 = cap := by omega
    rw [hcap]
    have hw := utf8_write_of_size_le src cap STATUS_SUCCESS STATUS_SUCCESS (by omega)
    simp [hw.1, hw.2]
  · intro src cap _hval h
    simp only [RtlUnicodeToUTF8N, if_true] at h ⊢
    have hw := utf16_write_of_size_le src cap STATUS_SUCCESS STATUS_SUCCESS (by omega)
    simp [hw.1, hw.2]

/-- Witness for C1 at concrete inputs: `"A" ++ U+10000` as UTF-8 with a
3-`WCHAR` destination, and `"A", U+00E9, U+10000` as UTF-16 with a
7-byte destination. -/
theorem utf8_utf16_size_only_equals_writing_pass_witness :
    ((RtlUTF8ToUnicodeN true 0 [0x41, 0xf0, 0x90, 0x80, 0x80]).reslen ≤ 2 * 3 ∧
     (RtlUTF8ToUnicodeN false (2 * 3) [0x41, 0xf0, 0x90, 0x80, 0x80]).reslen =
       (RtlUTF8ToUnicodeN true 0 [0x41, 0xf0, 0x90, 0x80, 0x80]).reslen) ∧
    (valid_utf16 [0x41, 0xe9, 0xd800, 0xdc00] = true ∧
     (RtlUnicodeToUTF8N true 0 [0x41, 0xe9, 0xd800, 0xdc00]).reslen ≤ 7 ∧
     (RtlUnicodeToUTF8N false 7 [0x41, 0xe9, 0xd800, 0xdc00]).reslen =
       (RtlUnicodeToUTF8N true 0 [0x41, 0xe9, 0xd800, 0xdc00]).reslen) := by
  have h1 : (RtlUTF8ToUnicodeN true 0 [0x41, 0xf0, 0x90, 0x80, 0x80]).reslen = 6 := by
    simp +decide [RtlUTF8ToUnicodeN, utf8_to_utf16_size, decode_utf8_char, utf8_length,
      utf8_mask, utf8_tail1, utf8_tail2, utf8_tail3, STATUS_SUCCESS]
  have h2 : (RtlUnicodeToUTF8N true 0 [0x41, 0xe9, 0xd800, 0xdc00]).reslen = 7 := by
    simp +decide [RtlUnicodeToUTF8N, utf16_to_utf8_size, get_utf16, STATUS_SUCCESS]
  refine ⟨⟨by omega, utf8_utf16_size_only_equals_writing_pass.1 _ 3 (by omega)⟩,
    ⟨by decide, by omega, utf8_utf16_size_only_equals_writing_pass.2 _ 7 (by decide) (by omega)⟩⟩
theorem uni2cp_dbcs_spec (t : Nat → Nat) (f : Nat) (src : List Nat) :
    ∃ k, k ≤ src.length ∧
      (uni2cp_dbcs t f src).1 = (src.take k).flatMap (wctomb_enc t) ∧
      (uni2cp_dbcs t f src).2.2 = src.drop k ∧
      (uni2cp_dbcs t f src).2.1 ≤ f ∧
      (uni2cp_dbcs t f src).1.length = f - (uni2cp_dbcs t f src).2.1 ∧
      ((uni2cp_dbcs t f src).2.2 ≠ [] → (uni2cp_dbcs t f src).2.1 ≠ 0 →
        (uni2cp_dbcs t f src).2.1 = 1 ∧
        t ((uni2cp_dbcs t f src).2.2.headD 0 % 0x10000) % 0x10000 &&& 0xff00 ≠ 0 ∧
        (uni2cp_dbcs t f src).1.length = f - 1) := by
  match f, src with
  | 0, src =>
    refine ⟨0, by simp [uni2cp_dbcs], by simp [uni2cp_dbcs], by simp [uni2cp_dbcs],
      by simp [uni2cp_dbcs], by simp [uni2cp_dbcs], ?_⟩
    simp [uni2cp_dbcs]
  | i + 1, [] =>
    refine ⟨0, by simp [uni2cp_dbcs], by simp [uni2cp_dbcs], by simp [uni2cp_dbcs],
      by simp [uni2cp_dbcs], by simp [uni2cp_dbcs], ?_⟩
    simp [uni2cp_dbcs]
  | i + 1, c :: rest =>
    rw [uni2cp_dbcs]
    by_cases hv : t (c % 0x10000) % 0x10000 &&& 0xff00 ≠ 0
    · by_cases hi : i = 0
      · subst hi
        refine ⟨0, by simp, ?_, ?_, ?_, ?_, ?_⟩ <;>
          simp only [if_pos hv, if_pos rfl]
        · simp
        · simp
        · simp
        · simp
        · exact fun _ _ => ⟨rfl, by simpa using hv, by simp⟩
      · obtain ⟨k, hk, hout, hrest, hle, hlen, hbrk⟩ := uni2cp_dbcs_spec t (i - 1) rest
        refine ⟨k + 1, by simpa using Nat.succ_le_succ hk, ?_, ?_, ?_, ?_, ?_⟩ <;>
          simp only [if_pos hv, if_neg hi]
        · simp only [List.take_succ_cons, List.flatMap_cons]
          simp [wctomb_enc, if_pos hv, hout]
        · simpa using hrest
        · omega
        · simp only [List.length_cons, hlen]
          omega
        · intro h1 h2
          obtain ⟨hb1, hb2, hb3⟩ := hbrk h1 h2
          refine ⟨hb1, by simpa [hrest] using hb2, ?_⟩
          simp only [List.length_cons, hb3]
          omega
    · obtain ⟨k, hk, hout, hrest, hle, hlen, hbrk⟩ := uni2cp_dbcs_spec t i rest
      refine ⟨k + 1, by simpa using Nat.succ_le_succ hk, ?_, ?_, ?_, ?_, ?_⟩ <;>
        simp only [if_neg hv]
      · simp only [List.take_succ_cons, List.flatMap_cons]
        simp [wctomb_enc, if_neg hv, hout]
      · simpa using hrest
      · omega
      · simp only [List.length_cons, hlen]
        omega
      · intro h1 h2
        obtain ⟨hb1, hb2, hb3⟩ := hbrk h1 h2
        refine ⟨hb1, by simpa [hrest] using hb2, ?_⟩
        simp only [List.length_cons, hb3]
        omega
  termination_by src.length
  decreasing_by all_goals simp

/-- C2: for every DBCS code-page table and every Unicode input, when the
destination of `RtlUnicodeToCustomCPN` has exactly one byte of space
left and the next code unit maps to a 2-byte sequence, the conversion
stops before consuming that code unit, reports the shorter consumed
length in `*reslen`, and never writes a lone lead byte: the output is
always a concatenation of complete encodings of a consumed input
prefix, and an early stop with unconsumed input either filled the
destination exactly or was caused by a 2-byte unit with one byte left,
in which case `*reslen` is `dstlen - 1` and that unit is unconsumed. -/
theorem RtlUnicodeToCustomCPN_partial_char_boundary (info : CPTableInfo)
    (h : info.DBCS = true) (dstlen : Nat) (src : List Nat) :
    ∃ k, k ≤ src.length ∧
      (RtlUnicodeToCustomCPN info dstlen src).out =
        (src.take k).flatMap (wctomb_enc info.WideCharTable) ∧
      (RtlUnicodeToCustomCPN info dstlen src).reslen =
        (RtlUnicodeToCustomCPN info dstlen src).out.length ∧
      (RtlUnicodeToCustomCPN info dstlen src).out.length ≤ dstlen ∧
      (k < src.length →
        (RtlUnicodeToCustomCPN info dstlen src).out.length = dstlen ∨
        (info.WideCharTable ((src.drop k).headD 0 % 0x10000) % 0x10000 &&& 0xff00 ≠ 0 ∧
         (RtlUnicodeToCustomCPN info dstlen src).reslen = dstlen - 1)) := by
  obtain ⟨k, hk, hout, hrest, hle, hlen, hbrk⟩ := uni2cp_dbcs_spec info.WideCharTable dstlen src
  simp only [RtlUnicodeToCustomCPN, h, if_true]
  refine ⟨k, hk, hout, by omega, by omega, ?_⟩
  intro hklt
  by_cases hi : (uni2cp_dbcs info.WideCharTable dstlen src).2.1 = 0
  · left
    omega
  · right
    have hne : (uni2cp_dbcs info.WideCharTable dstlen src).2.2 ≠ [] := by
      rw [hrest]
      simp only [ne_eq, List.drop_eq_nil_iff]
      omega
    obtain ⟨hb1, hb2, _hb3⟩ := hbrk hne hi
    rw [hrest] at hb2
    exact ⟨hb2, by omega⟩

/-- Witness for C2: a table mapping code unit 5 to the 2-byte sequence
`01 02`, input `[5, 5]`, three bytes of destination space: the first
unit fills two bytes, the second is not consumed. -/
theorem RtlUnicodeToCustomCPN_partial_char_boundary_witness :
    ∃ k, k ≤ [5, 5].length ∧
      (RtlUnicodeToCustomCPN ⟨true, fun _ => 0, fun _ => 0,
          fun c => if c = 5 then 0x0102 else 0x41⟩ 3 [5, 5]).out =
        ([5, 5].take k).flatMap (wctomb_enc (fun c => if c = 5 then 0x0102 else 0x41)) ∧
      (RtlUnicodeToCustomCPN ⟨true, fun _ => 0, fun _ => 0,
          fun c => if c = 5 then 0x0102 else 0x41⟩ 3 [5, 5]).reslen =
        (RtlUnicodeToCustomCPN ⟨true, fun _ => 0, fun _ => 0,
          fun c => if c = 5 then 0x0102 else 0x41⟩ 3 [5, 5]).out.length ∧
      (RtlUnicodeToCustomCPN ⟨true, fun _ => 0, fun _ => 0,
          fun c => if c = 5 then 0x0102 else 0x41⟩ 3 [5, 5]).out.length ≤ 3 ∧
      (k < [5, 5].length →
        (RtlUnicodeToCustomCPN ⟨true, fun _ => 0, fun _ => 0,
          fun c => if c = 5 then 0x0102 else 0x41⟩ 3 [5, 5]).out.length = 3 ∨
        ((fun c => if c = 5 then 0x0102 else 0x41) (([5, 5].drop k).headD 0 % 0x10000) %
            0x10000 &&& 0xff00 ≠ 0 ∧
         (RtlUnicodeToCustomCPN ⟨true, fun _ => 0, fun _ => 0,
           fun c => if c = 5 then 0x0102 else 0x41⟩ 3 [5, 5]).reslen = 3 - 1)) :=
  RtlUnicodeToCustomCPN_partial_char_boundary
    ⟨true, fun _ => 0, fun _ => 0, fun c => if c = 5 then 0x0102 else 0x41⟩ rfl 3 [5, 5]

/-- Counterexample to C6 as stated: a 2-byte mapping with a single byte
of destination space.  The conversion stops before the code unit, but
the returned status is `STATUS_SUCCESS` — no length-mismatch/overflow
condition and no some-not-mapped condition is reported. -/
theorem RtlUnicodeToCustomCPN_status_counterexample :
    (RtlUnicodeToCustomCPN ⟨true, fun _ => 0, fun _ => 0, fun _ => 0x0102⟩ 1 [7]).status =
      STATUS_SUCCESS ∧
    (RtlUnicodeToCustomCPN ⟨true, fun _ => 0, fun _ => 0, fun _ => 0x0102⟩ 1 [7]).out = [] ∧
    (RtlUnicodeToCustomCPN ⟨true, fun _ => 0, fun _ => 0, fun _ => 0x0102⟩ 1 [7]).reslen = 0 ∧
    STATUS_SUCCESS ≠ STATUS_BUFFER_TOO_SMALL ∧
    STATUS_SUCCESS ≠ STATUS_SOME_NOT_MAPPED := by decide

/-- C6 (amended): when the destination of `RtlUnicodeToCustomCPN`
cannot hold both bytes of a 2-byte sequence the conversion stops before
consuming that code unit and reports the shorter consumed length in
`*reslen` (`dstlen - 1`), but its returned status is `STATUS_SUCCESS` in
every case — the function signals neither an overflow/length-mismatch
condition nor a some-not-mapped condition. -/
theorem RtlUnicodeToCustomCPN_truncation_status (info : CPTableInfo)
    (dstlen : Nat) (src : List Nat) :
    (RtlUnicodeToCustomCPN info dstlen src).status = STATUS_SUCCESS ∧
    (info.DBCS = true →
      (uni2cp_dbcs info.WideCharTable dstlen src).2.2 ≠ [] →
      (uni2cp_dbcs info.WideCharTable dstlen src).2.1 ≠ 0 →
      info.WideCharTable
          ((uni2cp_dbcs info.WideCharTable dstlen src).2.2.headD 0 % 0x10000) %
          0x10000 &&& 0xff00 ≠ 0 ∧
      (RtlUnicodeToCustomCPN info dstlen src).reslen = dstlen - 1) := by
  constructor
  · rcases hd : info.DBCS <;> simp [RtlUnicodeToCustomCPN, hd]
  · intro hd hne hi
    obtain ⟨k, hk, hout, hrest, hle, hlen, hbrk⟩ := uni2cp_dbcs_spec info.WideCharTable dstlen src
    obtain ⟨hb1, hb2, _⟩ := hbrk hne hi
    refine ⟨hb2, ?_⟩
    simp only [RtlUnicodeToCustomCPN, hd, if_true]
    omega

/-- Witness for C6 at the same boundary input as the counterexample:
the hypotheses of the break case hold and the conversion reports
`reslen = dstlen - 1 = 0` with the 2-byte unit unconsumed. -/
theorem RtlUnicodeToCustomCPN_truncation_status_witness :
    ((uni2cp_dbcs (fun _ => 0x0102) 1 [7]).2.2 ≠ [] ∧
     (uni2cp_dbcs (fun _ => 0x0102) 1 [7]).2.1 ≠ 0) ∧
    ((RtlUnicodeToCustomCPN ⟨true, fun _ => 0, fun _ => 0, fun _ => 0x0102⟩ 1 [7]).status =
       STATUS_SUCCESS ∧
     ((0x0102 : Nat) % 0x10000 &&& 0xff00 ≠ 0 ∧
      (RtlUnicodeToCustomCPN ⟨true, fun _ => 0, fun _ => 0, fun _ => 0x0102⟩ 1 [7]).reslen =
        1 - 1)) := by
  have h := RtlUnicodeToCustomCPN_truncation_status
    ⟨true, fun _ => 0, fun _ => 0, fun _ => 0x0102⟩ 1 [7]
  refine ⟨⟨by decide, by decide⟩, h.1, ?_⟩
  have h2 := h.2 rfl (by decide) (by decide)
  exact ⟨by decide, h2.2⟩

theorem cp2uni_dbcs_nil (offs mb : Nat → Nat) (i : Nat) :
    cp2uni_dbcs offs mb i [] = ([], i, []) := by
  match i with
  | 0 => rfl
  | _ + 1 => rfl

theorem cp2uni_of_size_le (offs mb : Nat → Nat) (src : List Nat) (i : Nat)
    (h : mbtowc_size_dbcs offs src ≤ i) :
    (cp2uni_dbcs offs mb i src).1.length = mbtowc_size_dbcs offs src ∧
    (cp2uni_dbcs offs mb i src).2.1 = i - mbtowc_size_dbcs offs src ∧
    (cp2uni_dbcs offs mb i src).2.2 = [] := by
  match src, i with
  | [], i =>
    simp [cp2uni_dbcs_nil, mbtowc_size_dbcs]
  | [b], i =>
    rw [mbtowc_size_dbcs] at h ⊢
    obtain ⟨i', rfl⟩ : ∃ i', i = i' + 1 := ⟨i - 1, by omega⟩
    rw [cp2uni_dbcs]
    simp [cp2uni_dbcs_nil]
  | b :: b2 :: rest, i =>
    rw [mbtowc_size_dbcs] at h ⊢
    by_cases hb : offs (b % 256) % 0x10000 ≠ 0
    · simp only [if_pos hb] at h ⊢
      obtain ⟨i', rfl⟩ : ∃ i', i = i' + 1 := ⟨i - 1, by omega⟩
      rw [cp2uni_dbcs]
      simp only [if_pos hb]
      have ih := cp2uni_of_size_le offs mb rest i' (by omega)
      refine ⟨by simp [ih.1], ?_, ih.2.2⟩
      simp only [ih.2.1]
      omega
    · simp only [if_neg hb] at h ⊢
      obtain ⟨i', rfl⟩ : ∃ i', i = i' + 1 := ⟨i - 1, by omega⟩
      rw [cp2uni_dbcs]
      simp only [if_neg hb]
      have ih := cp2uni_of_size_le offs mb (b2 :: rest) i' (by omega)
      refine ⟨by simp [ih.1], ?_, ih.2.2⟩
      simp only [ih.2.1]
      omega
  termination_by src.length
  decreasing_by all_goals simp_arith

/-- C5: for every DBCS code-page table and byte string, the size-only
walk `mbtowc_size` returns exactly the number of `WCHAR`s that the
writing conversion `RtlCustomCPToUnicodeN` produces given sufficient
destination capacity, consuming the whole input; a lead byte that is
the last available byte counts as (and is converted as) a single byte
through the single-byte table. -/
theorem mbtowc_size_matches_writing_pass (info : CPTableInfo) (h : info.DBCS = true)
    (dstlen : Nat) (src : List Nat) (hcap : mbtowc_size info src ≤ dstlen / 2) :
    (RtlCustomCPToUnicodeN info dstlen src).out.length = mbtowc_size info src ∧
    (RtlCustomCPToUnicodeN info dstlen src).reslen = mbtowc_size info src * 2 ∧
    RtlMultiByteToUnicodeSize info src = (mbtowc_size info src * 2, STATUS_SUCCESS) ∧
    (∀ b : Nat, mbtowc_size info [b] = 1 ∧
      ∀ i : Nat, cp2uni_dbcs info.DBCSOffsets info.MultiByteTable (i + 1) [b] =
        ([info.MultiByteTable (b % 256) % 0x10000], i, [])) := by
  rw [mbtowc_size, h] at hcap ⊢
  simp only [Bool.not_true, Bool.false_eq_true, if_false] at hcap ⊢
  have hw := cp2uni_of_size_le info.DBCSOffsets info.MultiByteTable src (dstlen / 2) hcap
  simp only [RtlCustomCPToUnicodeN, h, if_true, RtlMultiByteToUnicodeSize, mbtowc_size, h]
  refine ⟨hw.1, by omega, by simp, ?_⟩
  intro b
  refine ⟨rfl, fun i => ?_⟩
  rw [cp2uni_dbcs]
  simp [cp2uni_dbcs_nil]

/-- Witness for C5: the table with lead byte `0x81` (row offset `0x100`)
on the input `81 40 41` — one double-byte pair, then a single byte —
and on the lead-byte-last input `[0x81]`. -/
theorem mbtowc_size_matches_writing_pass_witness :
    ((⟨true, fun b => if b = 0x81 then 0x100 else 0, fun b => 0x30 + b, fun _ => 0⟩ :
        CPTableInfo).DBCS = true ∧
     mbtowc_size ⟨true, fun b => if b = 0x81 then 0x100 else 0, fun b => 0x30 + b, fun _ => 0⟩
       [0x81, 0x40, 0x41] ≤ 10 / 2) ∧
    (RtlCustomCPToUnicodeN ⟨true, fun b => if b = 0x81 then 0x100 else 0, fun b => 0x30 + b,
        fun _ => 0⟩ 10 [0x81, 0x40, 0x41]).out.length =
      mbtowc_size ⟨true, fun b => if b = 0x81 then 0x100 else 0, fun b => 0x30 + b, fun _ => 0⟩
        [0x81, 0x40, 0x41] := by
  refine ⟨⟨rfl, by decide⟩, ?_⟩
  exact (mbtowc_size_matches_writing_pass
    ⟨true, fun b => if b = 0x81 then 0x100 else 0, fun b => 0x30 + b, fun _ => 0⟩ rfl
    10 [0x81, 0x40, 0x41] (by decide)).1

/-- Counterexample to C4 as stated: `RtlCustomCPToUnicodeN` with
`dstlen = 0` on a 5-byte single-byte-codepage string stores `0` in
`*reslen` — not the required length of 5 code units (10 bytes).  The
required length is obtained from the separate size-query entry point
`RtlMultiByteToUnicodeSize` instead. -/
theorem RtlCustomCPToUnicodeN_dstlen0_counterexample :
    (RtlCustomCPToUnicodeN ⟨false, fun _ => 0, fun b => b, fun _ => 0⟩ 0 [1, 2, 3, 4, 5]).reslen
      = 0 ∧
    (RtlCustomCPToUnicodeN ⟨false, fun _ => 0, fun b => b, fun _ => 0⟩ 0 [1, 2, 3, 4, 5]).reslen
      ≠ 5 * 2 ∧
    (RtlCustomCPToUnicodeN ⟨false, fun _ => 0, fun b => b, fun _ => 0⟩ 0 [1, 2, 3, 4, 5]).reslen
      ≠ 5 ∧
    (RtlMultiByteToUnicodeSize ⟨false, fun _ => 0, fun b => b, fun _ => 0⟩ [1, 2, 3, 4, 5]).1
      = 5 * 2 := by decide

/-- C4 (amended): calling the narrow-to-wide conversion
`RtlCustomCPToUnicodeN` with destination length 0 on a 5-byte string of
a single-byte code page returns a success status, writes nothing, and
stores `0` in the result-length output; the required length of 5 code
units (`5 * sizeof(WCHAR)` bytes) is returned by the size-query function
`RtlMultiByteToUnicodeSize`. -/
theorem RtlCustomCPToUnicodeN_dstlen0_amended (info : CPTableInfo)
    (h : info.DBCS = false) (src : List Nat) (h5 : src.length = 5) :
    RtlCustomCPToUnicodeN info 0 src = ⟨[], 0, STATUS_SUCCESS⟩ ∧
    RtlMultiByteToUnicodeSize info src = (5 * 2, STATUS_SUCCESS) := by
  constructor
  · simp [RtlCustomCPToUnicodeN, h]
  · simp [RtlMultiByteToUnicodeSize, mbtowc_size, h, h5]

/-- Witness for C4 at the identity single-byte table and the byte string
`[1, 2, 3, 4, 5]`. -/
theorem RtlCustomCPToUnicodeN_dstlen0_amended_witness :
    ((⟨false, fun _ => 0, fun b => b, fun _ => 0⟩ : CPTableInfo).DBCS = false ∧
     ([1, 2, 3, 4, 5] : List Nat).length = 5) ∧
    RtlCustomCPToUnicodeN ⟨false, fun _ => 0, fun b => b, fun _ => 0⟩ 0 [1, 2, 3, 4, 5] =
      ⟨[], 0, STATUS_SUCCESS⟩ ∧
    RtlMultiByteToUnicodeSize ⟨false, fun _ => 0, fun b => b, fun _ => 0⟩ [1, 2, 3, 4, 5] =
      (5 * 2, STATUS_SUCCESS) :=
  ⟨⟨rfl, rfl⟩,
   RtlCustomCPToUnicodeN_dstlen0_amended ⟨false, fun _ => 0, fun b => b, fun _ => 0⟩ rfl
     [1, 2, 3, 4, 5] rfl⟩
theorem compare_locale_names_congr (n1 n2 : List Nat)
    (hmap : n1.map (fun c => locale_name_fold (c % 0x10000)) =
      n2.map (fun c => locale_name_fold (c % 0x10000)))
    (s : List Nat) :
    compare_locale_names n1 s = compare_locale_names n2 s := by
  induction n1 generalizing n2 s with
  | nil =>
    have h2 : n2 = [] := by cases n2 <;> simp_all
    subst h2
    rfl
  | cons c1 r1 ih =>
    match n2 with
    | [] => simp at hmap
    | c2 :: r2 =>
      simp only [List.map_cons, List.cons.injEq] at hmap
      rw [compare_locale_names, compare_locale_names]
      simp only [hmap.1]
      by_cases hc : locale_name_fold (c2 % 0x10000) = 0 ∨
          locale_name_fold (c2 % 0x10000) ≠ locale_name_fold (s.headD 0 % 0x10000)
      · simp only [if_pos hc]
      · simp only [if_neg hc]
        exact ih r2 hmap.2 s.tail

theorem find_lcname_rec_congr (ent : Nat → LcnameEntry) (n1 n2 : List Nat)
    (hcmp : ∀ s, compare_locale_names n1 s = compare_locale_names n2 s) (lo hi : Int) :
    find_lcname_rec ent n1 lo hi = find_lcname_rec ent n2 lo hi := by
  rw [find_lcname_rec, find_lcname_rec]
  by_cases h : lo ≤ hi
  · simp only [dif_pos h, hcmp]
    by_cases h1 : compare_locale_names n2 ((ent ((lo + hi) / 2).toNat).name) < 0
    · simp only [if_pos h1]
      exact find_lcname_rec_congr ent n1 n2 hcmp lo ((lo + hi) / 2 - 1)
    · simp only [if_neg h1]
      by_cases h2 : 0 < compare_locale_names n2 ((ent ((lo + hi) / 2).toNat).name)
      · simp only [if_pos h2]
        exact find_lcname_rec_congr ent n1 n2 hcmp ((lo + hi) / 2 + 1) hi
      · simp only [if_neg h2]
  · simp only [dif_neg h]
  termination_by (hi + 1 - lo).toNat
  decreasing_by all_goals omega

/-- C7: the locale-name comparator folds only ASCII letters and treats
`_` and `-` as equivalent; any two names with the same folded content
compare equally against every stored name, so the binary-search lookup
returns the same entry for them.  The closed conjuncts show folding in
action: `en_US` equals `EN-us`, while the non-ASCII pair U+00E9/U+00C9
(`é`/`É`) stays distinct — there is no full Unicode case folding. -/
theorem locale_name_lookup_ascii_fold_separator_equiv :
    (∀ (n1 n2 : List Nat),
       n1.map (fun c => locale_name_fold (c % 0x10000)) =
         n2.map (fun c => locale_name_fold (c % 0x10000)) →
       (∀ s, compare_locale_names n1 s = compare_locale_names n2 s) ∧
       ∀ (ent : Nat → LcnameEntry) (nb : Nat),
         find_lcname_entry ent nb n1 = find_lcname_entry ent nb n2) ∧
    compare_locale_names [0x65, 0x6e, 0x5f, 0x55, 0x53] [0x45, 0x4e, 0x2d, 0x75, 0x73] = 0 ∧
    compare_locale_names [0xe9] [0xc9] ≠ 0 := by
  refine ⟨fun n1 n2 hmap => ?_, by decide, by decide⟩
  refine ⟨compare_locale_names_congr n1 n2 hmap, fun ent nb => ?_⟩
  exact find_lcname_rec_congr ent n1 n2 (compare_locale_names_congr n1 n2 hmap) 0 ((nb : Int) - 1)

/-- Witness for C7: `en_US` and `EN-us` fold identically; the comparator
and a one-entry index (storing `en-US`) agree on them. -/
theorem locale_name_lookup_ascii_fold_separator_equiv_witness :
    ([0x65, 0x6e, 0x5f, 0x55, 0x53].map (fun c => locale_name_fold (c % 0x10000)) =
       [0x45, 0x4e, 0x2d, 0x75, 0x73].map (fun c => locale_name_fold (c % 0x10000))) ∧
    compare_locale_names [0x65, 0x6e, 0x5f, 0x55, 0x53] [0x65, 0x6e, 0x2d, 0x55, 0x53] =
      compare_locale_names [0x45, 0x4e, 0x2d, 0x75, 0x73] [0x65, 0x6e, 0x2d, 0x55, 0x53] ∧
    find_lcname_entry (fun _ => ⟨[0x65, 0x6e, 0x2d, 0x55, 0x53], 3, 0x409⟩) 1
        [0x65, 0x6e, 0x5f, 0x55, 0x53] =
      find_lcname_entry (fun _ => ⟨[0x65, 0x6e, 0x2d, 0x55, 0x53], 3, 0x409⟩) 1
        [0x45, 0x4e, 0x2d, 0x75, 0x73] :=
  ⟨by decide,
   (locale_name_lookup_ascii_fold_separator_equiv.1 _ _ (by decide)).1 _,
   (locale_name_lookup_ascii_fold_separator_equiv.1 _ _ (by decide)).2 _ 1⟩
/-- C8: a locale identifier or name resolving to a neutral entry
(`inotneutral = 0`) is rejected with a not-found/invalid result by
`RtlLcidToLocaleName`, `RtlLocaleNameToLcid` and `RtlIsValidLocaleName`
whenever the caller's flags lack the neutral-allow bit 2, and accepted
when the bit is set. -/
theorem neutral_locale_needs_flag2 (reg : LocaleRegistry)
    (lcid : Nat) (e : LcidEntry)
    (hfind : find_lcid_entry reg.lcids reg.nb_lcids lcid = some e)
    (hneut : reg.inotneutral e.idx = 0)
    (hs1 : lcid ≠ LOCALE_USER_DEFAULT) (hs2 : lcid ≠ LOCALE_SYSTEM_DEFAULT)
    (hs3 : lcid ≠ LOCALE_CUSTOM_DEFAULT) (hs4 : lcid ≠ LOCALE_CUSTOM_UNSPECIFIED)
    (hs5 : lcid ≠ LOCALE_CUSTOM_UI_DEFAULT)
    (name : List Nat) (en : LcnameEntry)
    (hfindn : find_lcname_entry reg.lcnames reg.nb_lcnames name = some en)
    (hneutn : reg.inotneutral en.idx = 0)
    (maxlen : Nat) (hmax : (e.name.length + 1) * 2 ≤ maxlen) :
    (∀ flags, flags &&& 2 = 0 →
       (RtlLcidToLocaleName reg lcid flags maxlen false).status = STATUS_INVALID_PARAMETER_1 ∧
       RtlLocaleNameToLcid reg name flags = (STATUS_INVALID_PARAMETER_1, 0) ∧
       RtlIsValidLocaleName reg name flags = false) ∧
    (∀ flags, flags &&& 2 ≠ 0 →
       (RtlLcidToLocaleName reg lcid flags maxlen false).status = STATUS_SUCCESS ∧
       RtlLcidToLocaleName reg lcid flags maxlen false =
         ⟨STATUS_SUCCESS, e.name, e.name.length * 2⟩ ∧
       RtlLocaleNameToLcid reg name flags = (STATUS_SUCCESS, en.id) ∧
       RtlIsValidLocaleName reg name flags = true) := by
  constructor
  · intro flags hf
    refine ⟨?_, ?_, ?_⟩
    · simp only [RtlLcidToLocaleName, if_neg hs5, if_neg hs4, if_neg hs1,
        if_neg (by simp [hs2, hs3] : ¬ (lcid = LOCALE_SYSTEM_DEFAULT ∨
          lcid = LOCALE_CUSTOM_DEFAULT)), hfind]
      simp [hf, hneut]
    · simp only [RtlLocaleNameToLcid, hfindn]
      simp [hf, hneutn]
    · simp only [RtlIsValidLocaleName, hfindn]
      simp [hf, hneutn]
  · intro flags hf
    have hcond : ¬ (flags &&& 2 = 0 ∧ reg.inotneutral e.idx = 0) := by simp [hf]
    have hcondn : ¬ (flags &&& 2 = 0 ∧ reg.inotneutral en.idx = 0) := by simp [hf]
    refine ⟨?_, ?_, ?_, ?_⟩ <;>
      simp only [RtlLcidToLocaleName, RtlLocaleNameToLcid, RtlIsValidLocaleName,
        if_neg hs5, if_neg hs4, if_neg hs1,
        if_neg (by simp [hs2, hs3] : ¬ (lcid = LOCALE_SYSTEM_DEFAULT ∨
          lcid = LOCALE_CUSTOM_DEFAULT)), hfind, hfindn,
        if_neg hcond, if_neg hcondn, true_and,
        if_neg (by omega : ¬ maxlen < (e.name.length + 1) * 2)]

/-- Witness for C8: a one-entry registry whose single locale `en`
(LCID 9) is neutral. -/
theorem neutral_locale_needs_flag2_witness :
    (find_lcid_entry (fun _ => ⟨9, 0, [0x65, 0x6e]⟩) 1 9 = some ⟨9, 0, [0x65, 0x6e]⟩) ∧
    (find_lcname_entry (fun _ => ⟨[0x65, 0x6e], 0, 9⟩) 1 [0x65, 0x6e] =
      some ⟨[0x65, 0x6e], 0, 9⟩) ∧
    ((RtlLcidToLocaleName ⟨1, fun _ => ⟨[0x65, 0x6e], 0, 9⟩, 1, fun _ => ⟨9, 0, [0x65, 0x6e]⟩,
        fun _ => 0, 0, 0⟩ 9 0 10 false).status = STATUS_INVALID_PARAMETER_1 ∧
     RtlLocaleNameToLcid ⟨1, fun _ => ⟨[0x65, 0x6e], 0, 9⟩, 1, fun _ => ⟨9, 0, [0x65, 0x6e]⟩,
        fun _ => 0, 0, 0⟩ [0x65, 0x6e] 0 = (STATUS_INVALID_PARAMETER_1, 0) ∧
     RtlIsValidLocaleName ⟨1, fun _ => ⟨[0x65, 0x6e], 0, 9⟩, 1, fun _ => ⟨9, 0, [0x65, 0x6e]⟩,
        fun _ => 0, 0, 0⟩ [0x65, 0x6e] 0 = false) ∧
    ((RtlLcidToLocaleName ⟨1, fun _ => ⟨[0x65, 0x6e], 0, 9⟩, 1, fun _ => ⟨9, 0, [0x65, 0x6e]⟩,
        fun _ => 0, 0, 0⟩ 9 2 10 false).status = STATUS_SUCCESS ∧
     RtlLocaleNameToLcid ⟨1, fun _ => ⟨[0x65, 0x6e], 0, 9⟩, 1, fun _ => ⟨9, 0, [0x65, 0x6e]⟩,
        fun _ => 0, 0, 0⟩ [0x65, 0x6e] 2 = (STATUS_SUCCESS, 9) ∧
     RtlIsValidLocaleName ⟨1, fun _ => ⟨[0x65, 0x6e], 0, 9⟩, 1, fun _ => ⟨9, 0, [0x65, 0x6e]⟩,
        fun _ => 0, 0, 0⟩ [0x65, 0x6e] 2 = true) := by
  have hfind : find_lcid_entry (fun _ => (⟨9, 0, [0x65, 0x6e]⟩ : LcidEntry)) 1 9 =
      some ⟨9, 0, [0x65, 0x6e]⟩ := by
    rw [find_lcid_entry, find_lcid_rec]
    norm_num
  have hfindn : find_lcname_entry (fun _ => (⟨[0x65, 0x6e], 0, 9⟩ : LcnameEntry)) 1
      [0x65, 0x6e] = some ⟨[0x65, 0x6e], 0, 9⟩ := by
    rw [find_lcname_entry, find_lcname_rec]
    simp +decide [compare_locale_names, locale_name_fold, casemap_ascii]
  have h := neutral_locale_needs_flag2
    ⟨1, fun _ => ⟨[0x65, 0x6e], 0, 9⟩, 1, fun _ => ⟨9, 0, [0x65, 0x6e]⟩, fun _ => 0, 0, 0⟩
    9 ⟨9, 0, [0x65, 0x6e]⟩ hfind rfl (by decide) (by decide) (by decide) (by decide) (by decide)
    [0x65, 0x6e] ⟨[0x65, 0x6e], 0, 9⟩ hfindn rfl 10 (by decide)
  refine ⟨hfind, hfindn, h.1 0 rfl, ?_⟩
  have h2 := h.2 2 (by decide)
  exact ⟨h2.1, h2.2.2.1, h2.2.2.2⟩
/-- C9: `load_norm_table` validates every blob obtained from the table
provider before publishing it; a blob failing any check is rejected
with `STATUS_INVALID_PARAMETER` and the cache is left unchanged, so
every blob ever held in a cache slot satisfies `valid_norm_blob`. -/
theorem load_norm_table_only_caches_valid_blobs
    (provider : Nat → Except Nat NormBlob) (cache : Nat → Option NormBlob) (form : Nat) :
    (∀ blob : NormBlob, 0 < form → form < 16 → cache form = none →
       provider form = .ok blob → ¬ valid_norm_blob form blob.data blob.size →
       load_norm_table provider cache form = (STATUS_INVALID_PARAMETER, none, cache)) ∧
    ((∀ f b, cache f = some b → valid_norm_blob f b.data b.size) →
       ∀ f b, (load_norm_table provider cache form).2.2 f = some b →
         valid_norm_blob f b.data b.size) := by
  constructor
  · intro blob h0 h16 hc hp hv
    rw [load_norm_table]
    rw [if_neg (by omega), if_neg (by omega)]
    simp only [hc, hp]
    rw [if_neg hv]
  · intro hinv f b
    rw [load_norm_table]
    by_cases h0 : form = 0
    · rw [if_pos h0]
      exact hinv f b
    · rw [if_neg h0]
      by_cases h16 : 16 ≤ form
      · rw [if_pos h16]
        exact hinv f b
      · rw [if_neg h16]
        rcases hc : cache form with _ | t
        · rcases hp : provider form with s | blob
          · simp only [hc, hp]
            exact hinv f b
          · simp only [hc, hp]
            by_cases hv : valid_norm_blob form blob.data blob.size
            · rw [if_pos hv]
              intro hsome
              by_cases hf : f = form
              · simp only [if_pos hf] at hsome
                injection hsome with hb
                subst hb
                subst hf
                exact hv
              · simp only [if_neg hf] at hsome
                exact hinv f b hsome
            · rw [if_neg hv]
              exact hinv f b
        · simp only [hc]
          exact hinv f b

/-- Witness for C9: a provider returning an empty blob of size 0 for
form 1 (failing the size check) against an empty cache. -/
theorem load_norm_table_only_caches_valid_blobs_witness :
    ((0 : Nat) < 1 ∧ (1 : Nat) < 16 ∧ (fun _ => (none : Option NormBlob)) 1 = none ∧
     (fun _ => (Except.ok ⟨[], 0⟩ : Except Nat NormBlob)) 1 = .ok ⟨[], 0⟩ ∧
     ¬ valid_norm_blob 1 ([] : List Nat) 0) ∧
    load_norm_table (fun _ => .ok ⟨[], 0⟩) (fun _ => none) 1 =
      (STATUS_INVALID_PARAMETER, none, fun _ => none) ∧
    (∀ f b, (load_norm_table (fun _ => .ok ⟨[], 0⟩) (fun _ => none) 1).2.2 f = some b →
      valid_norm_blob f b.data b.size) := by
  refine ⟨⟨by decide, by decide, rfl, rfl, by decide⟩, ?_, ?_⟩
  · exact (load_norm_table_only_caches_valid_blobs (fun _ => .ok ⟨[], 0⟩) (fun _ => none) 1).1
      ⟨[], 0⟩ (by decide) (by decide) rfl rfl (by decide)
  · exact (load_norm_table_only_caches_valid_blobs (fun _ => .ok ⟨[], 0⟩) (fun _ => none) 1).2
      (fun f b h => by simp at h)
theorem get_utf16_low (c : Nat) (rest : List Nat) (h : c % 0x10000 < 0xd800) :
    get_utf16 (c :: rest) = (1, c % 0x10000) := by
  simp only [get_utf16]
  rw [if_neg (by omega), if_neg (by omega)]

theorem nameprep_loop_replicate_a (props : Nat → Nat) (buf : List Nat)
    (ha : props 0x61 ≠ 0x7f) (n : Nat) :
    ∀ i start, nameprep_label_loop props 0 buf (List.replicate n 0x61) i start =
      .ok (i + n, start) := by
  induction n with
  | zero => intro i start; simp [nameprep_label_loop]
  | succ n ih =>
    intro i start
    rw [List.replicate_succ, nameprep_label_loop]
    simp +decide [get_utf16_low 0x61 _ (by norm_num), ha, IDN_USE_STD3_ASCII_RULES,
      IDN_ALLOW_UNASSIGNED]
    rw [ih (i + 1) start]
    have h1 : i + 1 + n = i + (n + 1) := by omega
    rw [h1]

theorem findIdx_all_false (p : Nat → Bool) :
    ∀ l : List Nat, (∀ c ∈ l, p c = false) → l.findIdx p = l.length := by
  intro l
  induction l with
  | nil => simp
  | cons c r ih =>
    intro h
    rw [List.findIdx_cons]
    simp only [h c (by simp), cond_false, List.length_cons]
    rw [ih (fun x hx => h x (by simp [hx]))]

theorem nameprep_loop_b_dot (props : Nat → Nat) (buf : List Nat)
    (ha : props 0x61 ≠ 0x7f) (hb : props 0x62 ≠ 0x7f) (n : Nat) :
    nameprep_label_loop props 0 buf (0x62 :: 0x2e :: List.replicate n 0x61) 0 0 =
      .ok (2 + n, 2) := by
  rw [nameprep_label_loop]
  simp +decide [get_utf16_low 0x62 _ (by norm_num), hb, IDN_ALLOW_UNASSIGNED,
    IDN_USE_STD3_ASCII_RULES]
  rw [nameprep_label_loop]
  simp +decide [get_utf16_low 0x2e _ (by norm_num), IDN_USE_STD3_ASCII_RULES]
  rw [nameprep_loop_replicate_a props buf ha n 2 2]

theorem nameprep_ascii_scan_replicate (n : Nat) :
    (List.replicate n 0x61 : List Nat).findIdx
      (fun c => decide (c % 0x10000 < 0x20 ∨ 0x7f ≤ c % 0x10000)) = n := by
  have h := findIdx_all_false (fun c => decide (c % 0x10000 < 0x20 ∨ 0x7f ≤ c % 0x10000))
    (List.replicate n 0x61) (by
      intro c hc
      rw [List.eq_of_mem_replicate hc]
      decide)
  simpa using h

theorem nameprep_ascii_scan_b_dot (n : Nat) :
    ((0x62 : Nat) :: 0x2e :: List.replicate n 0x61 : List Nat).findIdx
      (fun c => decide (c % 0x10000 < 0x20 ∨ 0x7f ≤ c % 0x10000)) = n + 2 := by
  rw [List.findIdx_cons, List.findIdx_cons]
  simp only [show (decide ((0x62 : Nat) % 0x10000 < 0x20 ∨ 0x7f ≤ (0x62 : Nat) % 0x10000)) =
    false by decide, show (decide ((0x2e : Nat) % 0x10000 < 0x20 ∨
    0x7f ≤ (0x2e : Nat) % 0x10000)) = false by decide, cond_false]
  rw [nameprep_ascii_scan_replicate n]

/-- C3: in the IDN Nameprep validation, a dot-separated label of exactly
64 ASCII characters makes the whole call fail with
`STATUS_INVALID_IDN_NORMALIZATION`, while a label of exactly 63 ASCII
characters is accepted — both as the only label and as a label following
`b.` (`props` assigns the form-13 property byte; the letters used must
not be marked unassigned `0x7f`, as in the real table). -/
theorem idn_nameprep_label_length_boundary (props : Nat → Nat)
    (norm : List Nat → Nat × List Nat) (ha : props 0x61 ≠ 0x7f) (hb : props 0x62 ≠ 0x7f) :
    RtlIdnToNameprepUnicode props norm 0 (List.replicate 64 0x61) 0 =
      (STATUS_INVALID_IDN_NORMALIZATION, [], 0) ∧
    RtlIdnToNameprepUnicode props norm 0 (List.replicate 63 0x61) 0 =
      (STATUS_SUCCESS, [], 63) ∧
    RtlIdnToNameprepUnicode props norm 0 (0x62 :: 0x2e :: List.replicate 64 0x61) 0 =
      (STATUS_INVALID_IDN_NORMALIZATION, [], 0) ∧
    RtlIdnToNameprepUnicode props norm 0 (0x62 :: 0x2e :: List.replicate 63 0x61) 0 =
      (STATUS_SUCCESS, [], 65) := by
  refine ⟨?_, ?_, ?_, ?_⟩
  · rw [RtlIdnToNameprepUnicode, if_neg (by decide)]
    simp only [nameprep_ascii_scan_replicate 64, List.length_replicate]
    rw [if_pos (by simp), if_neg (by decide)]
    rw [nameprep_validate, nameprep_loop_replicate_a props _ ha 64 0 0]
    simp +decide [IDN_USE_STD3_ASCII_RULES]
  · rw [RtlIdnToNameprepUnicode, if_neg (by decide)]
    simp only [nameprep_ascii_scan_replicate 63, List.length_replicate]
    rw [if_pos (by simp), if_neg (by decide)]
    rw [nameprep_validate, nameprep_loop_replicate_a props _ ha 63 0 0]
    simp +decide [IDN_USE_STD3_ASCII_RULES]
  · rw [RtlIdnToNameprepUnicode, if_neg (by decide)]
    simp only [nameprep_ascii_scan_b_dot 64, List.length_cons, List.length_replicate]
    rw [if_pos (by simp), if_neg (by decide)]
    rw [nameprep_validate, nameprep_loop_b_dot props _ ha hb 64]
    simp +decide [IDN_USE_STD3_ASCII_RULES]
  · rw [RtlIdnToNameprepUnicode, if_neg (by decide)]
    simp only [nameprep_ascii_scan_b_dot 63, List.length_cons, List.length_replicate]
    rw [if_pos (by simp), if_neg (by decide)]
    rw [nameprep_validate, nameprep_loop_b_dot props _ ha hb 63]
    simp +decide [IDN_USE_STD3_ASCII_RULES]

/-- Witness for C3 with the trivial property table (every code point
assigned, property byte 0) and a trivial normalizer. -/
theorem idn_nameprep_label_length_boundary_witness :
    ((fun _ : Nat => (0 : Nat)) 0x61 ≠ 0x7f ∧ (fun _ : Nat => (0 : Nat)) 0x62 ≠ 0x7f) ∧
    RtlIdnToNameprepUnicode (fun _ => 0) (fun _ => (0, [])) 0 (List.replicate 64 0x61) 0 =
      (STATUS_INVALID_IDN_NORMALIZATION, [], 0) ∧
    RtlIdnToNameprepUnicode (fun _ => 0) (fun _ => (0, [])) 0 (List.replicate 63 0x61) 0 =
      (STATUS_SUCCESS, [], 63) ∧
    RtlIdnToNameprepUnicode (fun _ => 0) (fun _ => (0, [])) 0
        (0x62 :: 0x2e :: List.replicate 64 0x61) 0 =
      (STATUS_INVALID_IDN_NORMALIZATION, [], 0) ∧
    RtlIdnToNameprepUnicode (fun _ => 0) (fun _ => (0, [])) 0
        (0x62 :: 0x2e :: List.replicate 63 0x61) 0 =
      (STATUS_SUCCESS, [], 65) :=
  ⟨⟨by decide, by decide⟩,
   idn_nameprep_label_length_boundary (fun _ => 0) (fun _ => (0, [])) (by decide) (by decide)⟩
theorem decode_utf8_char_u10000 (tail : List Nat) :
    decode_utf8_char 0xf0 (0x90 :: 0x80 :: 0x80 :: tail) = (0x10000, 3) := by
  rw [decode_utf8_char]
  rw [if_neg (by simp only [List.length_cons]; simp +decide [utf8_length])]
  show utf8_tail3 (0xf0 &&& utf8_mask (utf8_length 0xf0)) 0x90 0x80 0x80 = (0x10000, 3)
  decide

theorem utf8_write_lone_high_surrogate (p : List Nat) (hp : ∀ b ∈ p, b < 0x80)
    (tail : List Nat) (st : Nat) :
    utf8_to_utf16_write (p.length + 1) (p ++ 0xf0 :: 0x90 :: 0x80 :: 0x80 :: tail) st =
      (p ++ [0xd800], tail, st) := by
  induction p with
  | nil =>
    simp only [List.length_nil, List.nil_append]
    rw [utf8_to_utf16_write]
    rw [if_neg (by decide)]
    simp [decode_utf8_char_u10000]
  | cons b p ih =>
    have hb : b < 0x80 := hp b (by simp)
    simp only [List.length_cons, List.cons_append]
    rw [utf8_to_utf16_write]
    rw [if_pos (by omega : b % 256 < 0x80)]
    rw [ih (fun x hx => hp x (by simp [hx]))]
    simp only [List.cons_append]
    rw [Nat.mod_eq_of_lt (by omega)]

/-- Counterexample to C10 as stated: when the supplementary code point
is the final input (U+10000 as `f0 90 80 80`, one-`WCHAR` destination),
the writing pass still truncates after the high surrogate and counts it,
but returns `STATUS_SUCCESS` — not the claimed buffer-too-small
status. -/
theorem RtlUTF8ToUnicodeN_lone_surrogate_status_counterexample :
    RtlUTF8ToUnicodeN false 2 [0xf0, 0x90, 0x80, 0x80] = ⟨[0xd800], 2, STATUS_SUCCESS⟩ ∧
    STATUS_SUCCESS ≠ STATUS_BUFFER_TOO_SMALL := by
  constructor
  · have h := utf8_write_lone_high_surrogate [] (by simp) [] STATUS_SUCCESS
    simp only [List.length_nil, List.nil_append] at h
    simp [RtlUTF8ToUnicodeN, h]
  · decide

/-- C10 (amended): in the writing pass of `RtlUTF8ToUnicodeN`, if the
destination fills immediately after the high surrogate of a
supplementary code point has been written, the conversion stops with the
lone high surrogate as the last output unit and counts it in `*reslen`;
the returned status is `STATUS_BUFFER_TOO_SMALL` exactly when further
input remains unconsumed, and `STATUS_SUCCESS` when the truncated pair
ended the input.  The never-emit-a-partial-character policy of the
code-page paths does not extend to surrogate pairs. -/
theorem RtlUTF8ToUnicodeN_lone_high_surrogate (p : List Nat) (hp : ∀ b ∈ p, b < 0x80)
    (tail : List Nat) :
    RtlUTF8ToUnicodeN false (2 * (p.length + 1)) (p ++ 0xf0 :: 0x90 :: 0x80 :: 0x80 :: tail) =
      ⟨p ++ [0xd800], (p.length + 1) * 2,
       if tail = [] then STATUS_SUCCESS else STATUS_BUFFER_TOO_SMALL⟩ := by
  have hcap : 2 * (p.length + 1) / 2 = p.length + 1 := by omega
  have h := utf8_write_lone_high_surrogate p hp tail STATUS_SUCCESS
  rcases htail : tail with _ | ⟨t, ts⟩ <;> subst htail <;> simp [RtlUTF8ToUnicodeN, hcap, h]

/-- Witness for C10: an ASCII byte `A` before the four-byte sequence,
once with trailing input (buffer-too-small) and once without
(success). -/
theorem RtlUTF8ToUnicodeN_lone_high_surrogate_witness :
    (∀ b ∈ [0x41], b < 0x80) ∧
    RtlUTF8ToUnicodeN false (2 * 2) [0x41, 0xf0, 0x90, 0x80, 0x80] =
      ⟨[0x41, 0xd800], 2 * 2, STATUS_SUCCESS⟩ ∧
    RtlUTF8ToUnicodeN false (2 * 2) [0x41, 0xf0, 0x90, 0x80, 0x80, 0x42] =
      ⟨[0x41, 0xd800], 2 * 2, STATUS_BUFFER_TOO_SMALL⟩ := by
  refine ⟨by decide, ?_, ?_⟩
  · have h := RtlUTF8ToUnicodeN_lone_high_surrogate [0x41] (by decide) []
    simpa using h
  · have h := RtlUTF8ToUnicodeN_lone_high_surrogate [0x41] (by decide) [0x42]
    simpa using h
